import Mathlib

/-!
Shallow embedding of `ureq-async` (src/lib.rs): an async wrapper for
`ureq::Request` that runs every blocking call on the `blocking` thread pool.

Modelling choices:
* The worker pool's `blocking::unblock(f).await` contract is "submit a
  blocking closure, get back a future that resolves with its return value"
  (spec section 6).  We model the awaitable as a `Future` record holding the
  value it resolves to, and `unblock f` as the future resolving to `f ()`.
* The synchronous HTTP library (`ureq`) is an external collaborator: it is
  modelled as a record `Ureq` of opaque blocking entry points, each returning
  `Except Err Res` (Rust `Result<Response, Error>`).
* `Result<T, E>` is `Except E T`; byte buffers (`&[u8]`) are `List Nat`.
* An `AsyncRead` source is a state machine whose `poll_read` either yields
  `Poll.ready` with the bytes read (empty list = end of stream) or an I/O
  error, or `Poll.pending`.  `futures_lite::future::block_on` is a
  fuel-bounded polling loop; `none` means the source was never ready within
  the fuel, i.e. the pool thread is still blocked.
-/

namespace UreqAsync

/-- Result of polling an asynchronous computation once (Rust `std::task::Poll`). -/
inductive Poll (α : Type) where
  | ready (a : α)
  | pending
deriving DecidableEq

/-- An asynchronous byte source with state type `σ` and I/O-error type `ε`.
`poll_read s cap` polls the source with a destination buffer of capacity
`cap`; on `ready (.ok l)`, `l` is the byte chunk written into the buffer
(`l = []` means end of stream). -/
structure AsyncSource (σ ε : Type) where
  poll_read : σ → Nat → Poll (Except ε (List Nat)) × σ

/-- `futures_lite::future::block_on`: repeatedly poll the read future on the
current (pool) thread until it is ready, here bounded by `fuel` polls.
`none` models the thread still being blocked (the source never became
ready within `fuel`). -/
def block_on {σ ε : Type} (src : AsyncSource σ ε) :
    Nat → Nat → σ → Option (Except ε (List Nat) × σ)
  | 0, _, _ => none
  | fuel + 1, cap, s =>
    match src.poll_read s cap with
    | (Poll.ready r, s') => some (r, s')
    | (Poll.pending, s') => block_on src fuel cap s'

/-- `struct ReadProxy<R> { reader: R }`: the synchronous-read adapter.  Its
only state is the wrapped async reader. -/
structure ReadProxy (σ : Type) where
  reader : σ

/-- `impl io::Read for ReadProxy`: `read` drives the wrapped async source with
`block_on(self.reader.read(buf))` and returns the outcome unchanged (the
bytes written determine the returned count; `.ok []` is the `Ok(0)` EOF). -/
def ReadProxy.read {σ ε : Type} (src : AsyncSource σ ε) (fuel cap : Nat)
    (p : ReadProxy σ) : Option (Except ε (List Nat) × ReadProxy σ) :=
  match block_on src fuel cap p.reader with
  | none => none
  | some (r, s') => some (r, ReadProxy.mk s')

/-- The awaitable handle returned by a pool submission: it resolves to exactly
one value.  `resolve` is the value the `await` produces. -/
structure Future (α : Type) where
  resolve : α

/-- `blocking::unblock`: submit a closure to the worker pool; the returned
future resolves with the closure's return value (pool collaborator
contract, spec section 6). -/
def unblock {α : Type} (f : Unit → α) : Future α :=
  Future.mk (f ())

/-- The blocking entry points of the external synchronous HTTP library
(`ureq::Request`), each consuming the request and returning
`Result<Response, Error>`.  `Req`/`Res`/`Err` are the opaque request,
response and error types; `Rd` the blocking-reader type accepted by `send`;
`J` the serializable type for `send_json`; `B` the byte-buffer type. -/
structure Ureq (Req Res Err Rd J B : Type) where
  call : Req → Except Err Res
  send : Req → Rd → Except Err Res
  send_json : Req → J → Except Err Res
  send_bytes : Req → B → Except Err Res
  send_string : Req → String → Except Err Res
  send_form : Req → List (String × String) → Except Err Res

variable {Req Res Err J B σ ε S : Type}

/-- `call_async`: `blocking::unblock(move || self.call()).await`. -/
def call_async (lib : Ureq Req Res Err (ReadProxy σ) J B) (req : Req) :
    Future (Except Err Res) :=
  unblock (fun _ => lib.call req)

/-- `send_async`: `blocking::unblock(move || self.send(ReadProxy { reader })).await`. -/
def send_async (lib : Ureq Req Res Err (ReadProxy σ) J B) (req : Req)
    (reader : σ) : Future (Except Err Res) :=
  unblock (fun _ => lib.send req (ReadProxy.mk reader))

/-- `send_json_async`: `blocking::unblock(move || self.send_json(data)).await`. -/
def send_json_async (lib : Ureq Req Res Err (ReadProxy σ) J B) (req : Req)
    (data : J) : Future (Except Err Res) :=
  unblock (fun _ => lib.send_json req data)

/-- `send_bytes_async`: `blocking::unblock(move || self.send_bytes(&bytes)).await`. -/
def send_bytes_async (lib : Ureq Req Res Err (ReadProxy σ) J B) (req : Req)
    (bytes : B) : Future (Except Err Res) :=
  unblock (fun _ => lib.send_bytes req bytes)

/-- `send_string_async`: `blocking::unblock(move || self.send_string(&data)).await`. -/
def send_string_async (lib : Ureq Req Res Err (ReadProxy σ) J B) (req : Req)
    (data : String) : Future (Except Err Res) :=
  unblock (fun _ => lib.send_string req data)

/-- The `form_refs` vector built inside the `send_form_async` closure:
`form.iter().map(|(k, v)| (k.as_ref(), v.as_ref())).collect()`.  `asRef` is
the `AsRef<str>` view of the string-like type `S`. -/
def form_refs (asRef : S → String) (form : List (S × S)) :
    List (String × String) :=
  form.map (fun kv => (asRef kv.1, asRef kv.2))

/-- `send_form_async`: builds `form_refs` inside the pool closure and calls
the blocking `send_form(&form_refs)`. -/
def send_form_async (lib : Ureq Req Res Err (ReadProxy σ) J B)
    (asRef : S → String) (req : Req) (form : List (S × S)) :
    Future (Except Err Res) :=
  unblock (fun _ => lib.send_form req (form_refs asRef form))

/-! ### A concrete family of async sources for the streaming claims

`evSource` realises "an async source that yields these chunks / pendings /
errors in this order": its state is the list of remaining events. -/

/-- One scheduled behaviour of a scripted async source: return `Pending`
once, yield a byte chunk, or fail with an I/O error.  When the script is
exhausted the source reports end of stream (`Ok(0)`). -/
inductive SrcEv (ε : Type) where
  | pend
  | chunk (bytes : List Nat)
  | fail (e : ε)
deriving DecidableEq

/-- The scripted async source over an event list.  A chunk longer than the
destination buffer is delivered over several reads, capacity bytes at a
time; an exhausted script is end of stream. -/
def evSource (ε : Type) : AsyncSource (List (SrcEv ε)) ε :=
  AsyncSource.mk (fun s cap =>
    match s with
    | [] => (Poll.ready (Except.ok []), [])
    | SrcEv.pend :: rest => (Poll.pending, rest)
    | SrcEv.fail e :: rest => (Poll.ready (Except.error e), rest)
    | SrcEv.chunk l :: rest =>
      if l.length ≤ cap then (Poll.ready (Except.ok l), rest)
      else (Poll.ready (Except.ok (l.take cap)), SrcEv.chunk (l.drop cap) :: rest))

/-- The sequence of read outcomes a blocking consumer observes when it calls
`ReadProxy.read` repeatedly (buffer capacity `cap`, at most `steps` reads)
until EOF (`Ok(0)`), an error, or a read that never completes. -/
def observedReads {σ ε : Type} (src : AsyncSource σ ε) (fuel cap : Nat) :
    Nat → ReadProxy σ → List (Except ε (List Nat))
  | 0, _ => []
  | steps + 1, p =>
    match ReadProxy.read src fuel cap p with
    | none => []
    | some (Except.error e, _) => [Except.error e]
    | some (Except.ok [], _) => [Except.ok []]
    | some (Except.ok (b :: bs), p') =>
      Except.ok (b :: bs) :: observedReads src fuel cap steps p'

/-- Modelled from the spec: the synchronous HTTP library's consuming
send-with-reader entry point, which is not part of this repository.  Spec
section 6 requires a blocking `Read` consumer; sections 4.2 and 8 require
that it reads the body chunk by chunk until EOF and that a read error makes
the whole send fail with that error.  `some (.ok body)` is a completed send
with the observed request body, `some (.error e)` a failed send, `none` an
uncompleted send (reader blocked or budget exhausted). -/
def sendWithReader {σ ε : Type} (src : AsyncSource σ ε) (fuel cap : Nat) :
    Nat → ReadProxy σ → Option (Except ε (List Nat))
  | 0, _ => none
  | steps + 1, p =>
    match ReadProxy.read src fuel cap p with
    | none => none
    | some (Except.error e, _) => some (Except.error e)
    | some (Except.ok [], _) => some (Except.ok [])
    | some (Except.ok (b :: bs), p') =>
      (sendWithReader src fuel cap steps p').map
        (fun r => r.map (fun body => b :: bs ++ body))

/-! ### The worker-pool failure model -/

/-- Modelled from the spec: how a pool submission can end (spec section 7).
The pool either runs the closure to completion, or fails to execute it at
all (pool shut down, or the closure aborts abnormally). -/
inductive PoolOutcome (α : Type) where
  | completed (a : α)
  | aborted
deriving DecidableEq

/-- Modelled from the spec: executing a submitted closure on the worker pool.
`healthy = true` is the normal regime in which `unblock`'s contract holds;
`healthy = false` is the infrastructure-failure regime of spec section 7. -/
def runPool {α : Type} (healthy : Bool) (f : Unit → α) : PoolOutcome α :=
  if healthy then PoolOutcome.completed (f ()) else PoolOutcome.aborted

/-- How the awaiting cooperative task ends (spec section 7): either normally
with the closure's value, or by abnormal termination (the pool failure is
propagated as a panic of the awaiting task, never fabricated into a value). -/
inductive TaskEnd (α : Type) where
  | normal (a : α)
  | panicked
deriving DecidableEq

/-- Modelled from the spec: awaiting the pool submission.  A completed closure
resolves the task normally with the closure's value; an aborted submission
terminates the awaiting task abnormally. -/
def awaitPool {α : Type} : PoolOutcome α → TaskEnd α
  | PoolOutcome.completed a => TaskEnd.normal a
  | PoolOutcome.aborted => TaskEnd.panicked

/-! ### Helper lemmas about `block_on` over the scripted source -/

theorem block_on_skips_pendings {ε : Type} (k : Nat) :
    ∀ (fuel cap : Nat) (rest : List (SrcEv ε)), k < fuel →
      block_on (evSource ε) fuel cap (List.replicate k SrcEv.pend ++ rest)
        = block_on (evSource ε) (fuel - k) cap rest := by
  induction k with
  | zero =>
    intro fuel cap rest _
    simp
  | succ k ih =>
    intro fuel cap rest h
    match fuel, h with
    | f + 1, h =>
      have hk : k < f := Nat.lt_of_succ_lt_succ h
      have hstep :
          block_on (evSource ε) (f + 1) cap
              (List.replicate (k + 1) SrcEv.pend ++ rest)
            = block_on (evSource ε) f cap
              (List.replicate k SrcEv.pend ++ rest) := by
        simp [List.replicate_succ, block_on, evSource]
      rw [hstep, ih f cap rest hk, Nat.succ_sub_succ]

theorem block_on_chunk {ε : Type} (fuel cap : Nat) (l : List Nat)
    (rest : List (SrcEv ε)) (hf : 0 < fuel) (hl : l.length ≤ cap) :
    block_on (evSource ε) fuel cap (SrcEv.chunk l :: rest)
      = some (Except.ok l, rest) := by
  match fuel, hf with
  | f + 1, _ => simp [block_on, evSource, hl]

theorem block_on_fail {ε : Type} (fuel cap : Nat) (e : ε)
    (rest : List (SrcEv ε)) (hf : 0 < fuel) :
    block_on (evSource ε) fuel cap (SrcEv.fail e :: rest)
      = some (Except.error e, rest) := by
  match fuel, hf with
  | f + 1, _ => simp [block_on, evSource]

theorem block_on_eos {ε : Type} (fuel cap : Nat) (hf : 0 < fuel) :
    block_on (evSource ε) fuel cap ([] : List (SrcEv ε))
      = some (Except.ok [], []) := by
  match fuel, hf with
  | f + 1, _ => simp [block_on, evSource]

theorem observedReads_cons {σ ε : Type} (src : AsyncSource σ ε)
    (fuel cap steps : Nat) (p p' : ReadProxy σ) (b : Nat) (bs : List Nat)
    (h : ReadProxy.read src fuel cap p = some (Except.ok (b :: bs), p')) :
    observedReads src fuel cap (steps + 1) p
      = Except.ok (b :: bs) :: observedReads src fuel cap steps p' := by
  simp [observedReads, h]

theorem observedReads_eof {σ ε : Type} (src : AsyncSource σ ε)
    (fuel cap steps : Nat) (p p' : ReadProxy σ)
    (h : ReadProxy.read src fuel cap p = some (Except.ok [], p')) :
    observedReads src fuel cap (steps + 1) p = [Except.ok []] := by
  simp [observedReads, h]

theorem sendWithReader_error_step {σ ε : Type} (src : AsyncSource σ ε)
    (fuel cap steps : Nat) (p p' : ReadProxy σ) (e : ε)
    (h : ReadProxy.read src fuel cap p = some (Except.error e, p')) :
    sendWithReader src fuel cap (steps + 1) p = some (Except.error e) := by
  simp [sendWithReader, h]

/-! ### Theorems -/

/-- C1: for every pending request and every payload variant, the awaitable
returned by the facade operation (`call_async`, `send_async`,
`send_json_async`, `send_bytes_async`, `send_string_async`,
`send_form_async`) resolves to exactly the `Result<Response, Error>` that
the corresponding blocking `ureq` entry point returns on the same request
and payload (the async stream being presented to the blocking `send`
through the `ReadProxy` adapter, and the form pairs through their `&str`
views). -/
theorem async_ops_refine_blocking (lib : Ureq Req Res Err (ReadProxy σ) J B)
    (req : Req) (reader : σ) (data : J) (bytes : B) (s : String)
    (pairs : List (String × String)) :
    (call_async lib req).resolve = lib.call req ∧
    (send_async lib req reader).resolve = lib.send req (ReadProxy.mk reader) ∧
    (send_json_async lib req data).resolve = lib.send_json req data ∧
    (send_bytes_async lib req bytes).resolve = lib.send_bytes req bytes ∧
    (send_string_async lib req s).resolve = lib.send_string req s ∧
    (send_form_async lib (fun v => v) req pairs).resolve
      = lib.send_form req pairs := by
  refine ⟨rfl, rfl, rfl, rfl, rfl, ?_⟩
  simp [send_form_async, form_refs, unblock]

/-- C2: every failure value returned by a blocking entry point is resolved by
the corresponding awaitable as `Err` carrying that failure value unchanged;
this layer neither retries nor transforms nor swallows it. -/
theorem errors_pass_through (lib : Ureq Req Res Err (ReadProxy σ) J B)
    (req : Req) (reader : σ) (data : J) (bytes : B) (s : String)
    (form : List (String × String)) (e : Err) :
    (lib.call req = Except.error e →
      (call_async lib req).resolve = Except.error e) ∧
    (lib.send req (ReadProxy.mk reader) = Except.error e →
      (send_async lib req reader).resolve = Except.error e) ∧
    (lib.send_json req data = Except.error e →
      (send_json_async lib req data).resolve = Except.error e) ∧
    (lib.send_bytes req bytes = Except.error e →
      (send_bytes_async lib req bytes).resolve = Except.error e) ∧
    (lib.send_string req s = Except.error e →
      (send_string_async lib req s).resolve = Except.error e) ∧
    (lib.send_form req (form_refs (fun v => v) form) = Except.error e →
      (send_form_async lib (fun v => v) req form).resolve = Except.error e) :=
  ⟨fun h => h, fun h => h, fun h => h, fun h => h, fun h => h, fun h => h⟩

/-- A concrete library instance all of whose blocking entry points fail with
error code 7, used to instantiate the pass-through theorem. -/
def errLib : Ureq Unit Unit Nat (ReadProxy Unit) Unit Unit :=
  Ureq.mk (fun _ => Except.error 7) (fun _ _ => Except.error 7)
    (fun _ _ => Except.error 7) (fun _ _ => Except.error 7)
    (fun _ _ => Except.error 7) (fun _ _ => Except.error 7)

/-- Witness for C2 at the concrete always-failing library: every facade
awaitable resolves to `Err 7`. -/
theorem errors_pass_through_witness :
    (call_async errLib ()).resolve = Except.error 7 ∧
    (send_async errLib () ()).resolve = Except.error 7 ∧
    (send_json_async errLib () ()).resolve = Except.error 7 ∧
    (send_bytes_async errLib () ()).resolve = Except.error 7 ∧
    (send_string_async errLib () "x").resolve = Except.error 7 ∧
    (send_form_async errLib (fun v => v) () [("a", "1")]).resolve
      = Except.error 7 := by
  have h := errors_pass_through errLib () () () () "x" [("a", "1")] 7
  exact ⟨h.1 rfl, h.2.1 rfl, h.2.2.1 rfl, h.2.2.2.1 rfl, h.2.2.2.2.1 rfl,
    h.2.2.2.2.2 rfl⟩

/-- C6: `send_form_async` resolves to exactly what the blocking `send_form`
produces on the `&str` views of the same owned pairs — and, when the pairs
are already strings, on the same pairs directly.  The reference pairs are
the `form_refs` vector built inside the pool closure from the owned,
moved-in vector, so (by value semantics) they are valid for the whole
blocking call. -/
theorem send_form_async_refines_send_form
    (lib : Ureq Req Res Err (ReadProxy σ) J B) (asRef : S → String)
    (req : Req) (form : List (S × S)) (pairs : List (String × String)) :
    (send_form_async lib asRef req form).resolve
      = lib.send_form req (form_refs asRef form) ∧
    (send_form_async lib (fun v => v) req pairs).resolve
      = lib.send_form req pairs := by
  refine ⟨rfl, ?_⟩
  simp [send_form_async, form_refs, unblock]

/-- C9: the `form_refs` vector built inside the `send_form_async` closure has
the same length as the input vector, and its `i`-th entry is exactly the
`i`-th input pair with both components viewed as `&str`: length, order and
key/value pairing are preserved. -/
theorem form_refs_preserves_length_order_pairing (asRef : S → String)
    (form : List (S × S)) :
    (form_refs asRef form).length = form.length ∧
    ∀ i : Nat, (form_refs asRef form).get? i
      = (form.get? i).map (fun kv => (asRef kv.1, asRef kv.2)) := by
  constructor
  · simp [form_refs]
  · intro i
    simp [form_refs]

/-- C10: `send_bytes_async` and `send_string_async` move the owned payload
into the pool closure and hand the blocking entry point exactly that
payload: the blocking call observes the caller's bytes/string unchanged
(and, the payload being owned by the closure, it lives for the whole
blocking call). -/
theorem owned_payload_passed_unchanged
    (lib : Ureq Req Res Err (ReadProxy σ) J B) (req : Req) (bytes : B)
    (s : String) :
    (send_bytes_async lib req bytes).resolve = lib.send_bytes req bytes ∧
    (send_string_async lib req s).resolve = lib.send_string req s :=
  ⟨rfl, rfl⟩

/-- C7: when the pool cannot execute the submitted closure, the awaiting task
terminates abnormally; the failure is never surfaced as the `Err` variant
(nor as `Ok`) of the request-level `Result`.  When the pool is healthy, the
await produces exactly the value `unblock`'s future resolves to. -/
theorem pool_failure_is_abnormal_termination (f : Unit → Except Err Res) :
    awaitPool (runPool false f) = TaskEnd.panicked ∧
    (∀ e : Err, awaitPool (runPool false f) ≠ TaskEnd.normal (Except.error e)) ∧
    (∀ r : Res, awaitPool (runPool false f) ≠ TaskEnd.normal (Except.ok r)) ∧
    awaitPool (runPool true f) = TaskEnd.normal (unblock f).resolve := by
  refine ⟨rfl, ?_, ?_, rfl⟩
  · intro e h
    simp [runPool, awaitPool] at h
  · intro r h
    simp [runPool, awaitPool] at h

theorem block_on_pends_eos {ε : Type} (k fuel cap : Nat) (h : k < fuel) :
    block_on (evSource ε) fuel cap (List.replicate k SrcEv.pend)
      = some (Except.ok [], []) := by
  have h2 := block_on_skips_pendings k fuel cap ([] : List (SrcEv ε)) h
  rw [List.append_nil] at h2
  rw [h2]
  exact block_on_eos _ _ (by omega)

/-- A script for an async source that yields two byte chunks and then end of
stream, with `Pending` polls interleaved before each readiness point. -/
def twoChunkScript (ε : Type) (p1 p2 p3 : Nat) (c1 c2 : List Nat) :
    List (SrcEv ε) :=
  List.replicate p1 SrcEv.pend ++ SrcEv.chunk c1 ::
    (List.replicate p2 SrcEv.pend ++ SrcEv.chunk c2 ::
      List.replicate p3 SrcEv.pend)

/-- C3: for every async source that yields two nonempty chunks and then end
of stream (with any number of `Pending` polls, below the polling budget,
before each readiness point), and any read-buffer capacity that holds each
chunk, the blocking consumer reading through `ReadProxy` observes exactly
the first chunk, then the second chunk, then a read returning 0 (EOF), in
that order: no reordering, no merging, no dropped chunk.  Instantiated at
chunks "abc" and "def" this is the spec's test case. -/
theorem send_async_preserves_chunk_order {ε : Type}
    (p1 p2 p3 fuel cap steps : Nat) (b1 : Nat) (t1 : List Nat) (b2 : Nat)
    (t2 : List Nat) (h1 : p1 < fuel) (h2 : p2 < fuel) (h3 : p3 < fuel)
    (hc1 : (b1 :: t1).length ≤ cap) (hc2 : (b2 :: t2).length ≤ cap)
    (hsteps : 3 ≤ steps) :
    observedReads (evSource ε) fuel cap steps
      (ReadProxy.mk (twoChunkScript ε p1 p2 p3 (b1 :: t1) (b2 :: t2)))
      = [Except.ok (b1 :: t1), Except.ok (b2 :: t2), Except.ok []] := by
  obtain ⟨n, rfl⟩ : ∃ n, steps = n + 1 + 1 + 1 := ⟨steps - 3, by omega⟩
  have hb1 : block_on (evSource ε) fuel cap
      (twoChunkScript ε p1 p2 p3 (b1 :: t1) (b2 :: t2))
      = some (Except.ok (b1 :: t1),
          List.replicate p2 SrcEv.pend ++ SrcEv.chunk (b2 :: t2) ::
            List.replicate p3 SrcEv.pend) := by
    unfold twoChunkScript
    rw [block_on_skips_pendings p1 fuel cap _ h1]
    exact block_on_chunk _ _ _ _ (by omega) hc1
  have r1 : ReadProxy.read (evSource ε) fuel cap
      (ReadProxy.mk (twoChunkScript ε p1 p2 p3 (b1 :: t1) (b2 :: t2)))
      = some (Except.ok (b1 :: t1),
          ReadProxy.mk (List.replicate p2 SrcEv.pend ++
            SrcEv.chunk (b2 :: t2) :: List.replicate p3 SrcEv.pend)) := by
    simp [ReadProxy.read, hb1]
  have hb2 : block_on (evSource ε) fuel cap
      (List.replicate p2 SrcEv.pend ++ SrcEv.chunk (b2 :: t2) ::
        List.replicate p3 SrcEv.pend)
      = some (Except.ok (b2 :: t2), List.replicate p3 SrcEv.pend) := by
    rw [block_on_skips_pendings p2 fuel cap _ h2]
    exact block_on_chunk _ _ _ _ (by omega) hc2
  have r2 : ReadProxy.read (evSource ε) fuel cap
      (ReadProxy.mk (List.replicate p2 SrcEv.pend ++
        SrcEv.chunk (b2 :: t2) :: List.replicate p3 SrcEv.pend))
      = some (Except.ok (b2 :: t2),
          ReadProxy.mk (List.replicate p3 SrcEv.pend)) := by
    simp [ReadProxy.read, hb2]
  have r3 : ReadProxy.read (evSource ε) fuel cap
      (ReadProxy.mk (List.replicate p3 SrcEv.pend))
      = some (Except.ok [], ReadProxy.mk ([] : List (SrcEv ε))) := by
    simp [ReadProxy.read, block_on_pends_eos p3 fuel cap h3]
  rw [observedReads_cons (evSource ε) fuel cap (n + 1 + 1) _ _ _ _ r1,
    observedReads_cons (evSource ε) fuel cap (n + 1) _ _ _ _ r2,
    observedReads_eof (evSource ε) fuel cap n _ _ r3]

/-- Witness for C3 at chunks "abc" (97, 98, 99) and "def" (100, 101, 102),
one `Pending` before each readiness point, polling budget 2, buffer
capacity 3 and three reads. -/
theorem send_async_preserves_chunk_order_witness :
    observedReads (evSource Nat) 2 3 3
      (ReadProxy.mk (twoChunkScript Nat 1 1 1 [97, 98, 99] [100, 101, 102]))
      = [Except.ok [97, 98, 99], Except.ok [100, 101, 102], Except.ok []] :=
  send_async_preserves_chunk_order 1 1 1 2 3 3 97 [98, 99] 100 [101, 102]
    (by decide) (by decide) (by decide) (by decide) (by decide) (by decide)

/-- C4: a `ReadProxy.read` call returns exactly the outcome of driving the
wrapped async source to its next readiness point, translated to the
blocking-read form: the byte chunk `l` (read count `l.length`, with `[]`
the `Ok(0)` end of stream) when the source produces bytes, the same I/O
error when the source fails, and no result (the pool thread stays blocked)
when the source never becomes ready within the polling budget.  The
resulting proxy carries exactly the advanced source state and nothing
else: the adapter keeps no state of its own between reads. -/
theorem read_proxy_translates_outcomes {σ ε : Type} (src : AsyncSource σ ε)
    (fuel cap : Nat) (p : ReadProxy σ) :
    (∀ (l : List Nat) (s' : σ),
      block_on src fuel cap p.reader = some (Except.ok l, s') →
        ReadProxy.read src fuel cap p = some (Except.ok l, ReadProxy.mk s')) ∧
    (∀ (e : ε) (s' : σ),
      block_on src fuel cap p.reader = some (Except.error e, s') →
        ReadProxy.read src fuel cap p
          = some (Except.error e, ReadProxy.mk s')) ∧
    (block_on src fuel cap p.reader = none →
      ReadProxy.read src fuel cap p = none) := by
  refine ⟨?_, ?_, ?_⟩
  · intro l s' h
    simp [ReadProxy.read, h]
  · intro e s' h
    simp [ReadProxy.read, h]
  · intro h
    simp [ReadProxy.read, h]

/-- Witness for C4: on a source whose script is a single one-byte chunk, one
read returns that chunk and the advanced (exhausted) script. -/
theorem read_proxy_translates_outcomes_witness :
    ReadProxy.read (evSource Nat) 1 1 (ReadProxy.mk [SrcEv.chunk [5]])
      = some (Except.ok [5], ReadProxy.mk []) :=
  (read_proxy_translates_outcomes (evSource Nat) 1 1
    (ReadProxy.mk [SrcEv.chunk [5]])).1 [5] [] rfl

/-- A concrete library instance over scripted-source readers all of whose
blocking entry points succeed, used to instantiate the error-propagation
theorem for streams. -/
def streamLib : Ureq Unit Unit Nat (ReadProxy (List (SrcEv Nat))) Unit Unit :=
  Ureq.mk (fun _ => Except.ok ()) (fun _ _ => Except.ok ())
    (fun _ _ => Except.ok ()) (fun _ _ => Except.ok ())
    (fun _ _ => Except.ok ()) (fun _ _ => Except.ok ())

/-- C5: for every async source whose first completed read reports an I/O
error (any number of `Pending` polls first), `send_async` hands the
blocking send exactly the `ReadProxy` over that source, and the blocking
send fails with that same error: it does not succeed with any body, in
particular it does not silently truncate the request to an empty body. -/
theorem first_read_error_fails_send {Req Res Err J B ε : Type}
    (lib : Ureq Req Res Err (ReadProxy (List (SrcEv ε))) J B) (req : Req)
    (k fuel cap steps : Nat) (e : ε) (rest : List (SrcEv ε))
    (hk : k < fuel) (hs : 0 < steps) :
    (send_async lib req
        (List.replicate k SrcEv.pend ++ SrcEv.fail e :: rest)).resolve
      = lib.send req
        (ReadProxy.mk (List.replicate k SrcEv.pend ++ SrcEv.fail e :: rest)) ∧
    sendWithReader (evSource ε) fuel cap steps
      (ReadProxy.mk (List.replicate k SrcEv.pend ++ SrcEv.fail e :: rest))
      = some (Except.error e) ∧
    ∀ body : List Nat,
      sendWithReader (evSource ε) fuel cap steps
        (ReadProxy.mk (List.replicate k SrcEv.pend ++ SrcEv.fail e :: rest))
        ≠ some (Except.ok body) := by
  have hb : block_on (evSource ε) fuel cap
      (List.replicate k SrcEv.pend ++ SrcEv.fail e :: rest)
      = some (Except.error e, rest) := by
    rw [block_on_skips_pendings k fuel cap _ hk]
    exact block_on_fail _ _ _ _ (by omega)
  have r : ReadProxy.read (evSource ε) fuel cap
      (ReadProxy.mk (List.replicate k SrcEv.pend ++ SrcEv.fail e :: rest))
      = some (Except.error e, ReadProxy.mk rest) := by
    simp [ReadProxy.read, hb]
  obtain ⟨n, rfl⟩ : ∃ n, steps = n + 1 := ⟨steps - 1, by omega⟩
  have hsend : sendWithReader (evSource ε) fuel cap (n + 1)
      (ReadProxy.mk (List.replicate k SrcEv.pend ++ SrcEv.fail e :: rest))
      = some (Except.error e) :=
    sendWithReader_error_step (evSource ε) fuel cap n _ _ e r
  refine ⟨rfl, hsend, ?_⟩
  intro body hok
  rw [hsend] at hok
  exact Except.noConfusion (Option.some.inj hok)

/-- Witness for C5: a script with one `Pending` and then I/O error 9 makes
the modelled blocking send fail with error 9. -/
theorem first_read_error_fails_send_witness :
    sendWithReader (evSource Nat) 2 1 1
      (ReadProxy.mk (List.replicate 1 SrcEv.pend ++ SrcEv.fail 9 :: []))
      = some (Except.error 9) :=
  (first_read_error_fails_send streamLib () 1 2 1 1 9 []
    (by decide) (by decide)).2.1

/-- Witness for C7 at a concrete closure: an aborted pool submission panics
the awaiting task and is not any `Result` value; a healthy pool resolves
`unblock`'s value. -/
theorem pool_failure_is_abnormal_termination_witness :
    awaitPool (runPool false (fun _ => (Except.ok 0 : Except Nat Nat)))
      = TaskEnd.panicked ∧
    awaitPool (runPool false (fun _ => (Except.ok 0 : Except Nat Nat)))
      ≠ TaskEnd.normal (Except.error 3) ∧
    awaitPool (runPool false (fun _ => (Except.ok 0 : Except Nat Nat)))
      ≠ TaskEnd.normal (Except.ok 0) ∧
    awaitPool (runPool true (fun _ => (Except.ok 0 : Except Nat Nat)))
      = TaskEnd.normal
        (unblock (fun _ => (Except.ok 0 : Except Nat Nat))).resolve := by
  have h := pool_failure_is_abnormal_termination
    (fun _ => (Except.ok 0 : Except Nat Nat))
  exact ⟨h.1, h.2.1 3, h.2.2.1 0, h.2.2.2⟩

end UreqAsync
